import Mathlib

/-!
Verification of the pg-db-tools object model, dependency ordering, reference
resolution, loading and diff logic (`pg_db_tools/pg_types.py` and
`pg_db_tools/commands/diff.py`), as a shallow embedding.

Python objects are identified by natural-number ids; attribute dictionaries
become Lean structures; Python exceptions become `Except` values; Python's
default `==`/`!=` on model objects (identity comparison, since none of the
classes define `__eq__`) becomes equality of object ids.
-/

/-- `DEFAULT_SCHEMA` constant (pg_types.py line 15). -/
def DEFAULT_SCHEMA : String := "public"

/-- `SILENT_SCHEMAS` constant (pg_types.py line 16). -/
def SILENT_SCHEMAS : List String := [DEFAULT_SCHEMA, "pg_catalog"]

/-- `SKIPPED_SCHEMAS` constant (pg_types.py lines 17-18). -/
def SKIPPED_SCHEMAS : List String :=
  ["pg_catalog", "information_schema", "pg_toast", "pg_temp_1", "pg_toast_temp_1",
   "dep_recurse"]

/-- The data of a `PgDatabase.objects` collection needed by the ordering loop of
`PgDatabase.to_json` (pg_types.py lines 161-190): each object (a natural-number
id standing for its Python identity) has a `get_dependencies()` result, an
owning schema (the `self.schema` attribute) and a `name` attribute. -/
structure PgObjectGraph where
  get_dependencies : Nat → List Nat
  schemaOf : Nat → Nat
  nameOf : Nat → String

/-- `PgObject.build_dependencies` (pg_types.py lines 277-278):
`self.dependencies = self.get_dependencies() + [self.schema]`. -/
def build_dependencies (M : PgObjectGraph) (o : Nat) : List Nat :=
  M.get_dependencies o ++ [M.schemaOf o]

/-- `PgObject.is_blocked` (pg_types.py lines 269-275): the object is blocked when
the list of its built dependencies that are in `blockingobjects` and differ from
itself (by identity, or by name when `samenameblocks` is false) is non-empty. -/
def is_blocked (M : PgObjectGraph) (o : Nat) (blockingobjects : List Nat)
    (samenameblocks : Bool) : Bool :=
  if samenameblocks then
    !((build_dependencies M o).filter
        (fun d => blockingobjects.contains d && d != o)).isEmpty
  else
    !((build_dependencies M o).filter
        (fun d => blockingobjects.contains d && M.nameOf d != M.nameOf o)).isEmpty

/-- One pass of the `while objects_to_include:` body of `PgDatabase.to_json`
(pg_types.py lines 166-183): the first object that is not blocked; failing that,
the first object not blocked under the relaxed rule (`samenameblocks = False`);
failing that, the head of the remaining list (`objects_to_include[0]`). -/
def select_next (M : PgObjectGraph) (x : Nat) (xs : List Nat) : Nat :=
  match (x :: xs).find? (fun o => !(is_blocked M o (x :: xs) true)) with
  | some o => o
  | none =>
    match (x :: xs).find? (fun o => !(is_blocked M o (x :: xs) false)) with
    | some o => o
    | none => x

theorem select_next_mem (M : PgObjectGraph) (x : Nat) (xs : List Nat) :
    select_next M x xs ∈ x :: xs := by
  unfold select_next
  cases h1 : (x :: xs).find? (fun o => !(is_blocked M o (x :: xs) true)) with
  | some o => exact List.mem_of_find?_eq_some h1
  | none =>
    cases h2 : (x :: xs).find? (fun o => !(is_blocked M o (x :: xs) false)) with
    | some o => exact List.mem_of_find?_eq_some h2
    | none => exact List.mem_cons_self x xs

/-- The ordering loop of `PgDatabase.to_json` (pg_types.py lines 165-183): the
selected object is appended to the output and removed from the remaining list
(`objects_to_include.remove(object)`, or `objects_to_include[1:]` in the final
fallback, which coincides with removal of the head). -/
def order_objects (M : PgObjectGraph) : List Nat → List Nat
  | [] => []
  | x :: xs =>
    select_next M x xs :: order_objects M ((x :: xs).erase (select_next M x xs))
termination_by l => l.length
decreasing_by
  rw [List.length_erase_of_mem (select_next_mem M x xs)]
  simp

/-- The filter at the head of `PgDatabase.to_json` (pg_types.py line 162):
objects whose schema name is in `SKIPPED_SCHEMAS` are dropped before ordering. -/
def working_objects (M : PgObjectGraph) (objects : List Nat) : List Nat :=
  objects.filter (fun o => !(SKIPPED_SCHEMAS.contains (M.nameOf (M.schemaOf o))))

/-- The object sequence emitted by `PgDatabase.to_json` (pg_types.py lines
161-190): the ordering loop applied to the filtered working set. -/
def to_json_order (M : PgObjectGraph) (objects : List Nat) : List Nat :=
  order_objects M (working_objects M objects)

theorem order_objects_perm (M : PgObjectGraph) :
    ∀ (n : Nat) (r : List Nat), r.length ≤ n → (order_objects M r).Perm r := by
  intro n
  induction n with
  | zero =>
    intro r hr
    have : r = [] := List.eq_nil_of_length_eq_zero (Nat.le_zero.mp hr)
    subst this
    simp [order_objects]
  | succ n ih =>
    intro r hr
    match r with
    | [] => simp [order_objects]
    | x :: xs =>
      have hm := select_next_mem M x xs
      have hlen : ((x :: xs).erase (select_next M x xs)).length ≤ n := by
        rw [List.length_erase_of_mem hm]
        simpa using Nat.le_of_succ_le_succ (by simpa using hr)
      have hperm := ih ((x :: xs).erase (select_next M x xs)) hlen
      have : order_objects M (x :: xs) =
          select_next M x xs ::
            order_objects M ((x :: xs).erase (select_next M x xs)) := by
        rw [order_objects]
      rw [this]
      exact ((hperm.cons (select_next M x xs)).trans
        (List.perm_cons_erase hm).symm)

/-- The dependency relation of the working set, as C1 describes it: `d` is a
dependency of `o` (`get_dependencies()` plus the owning schema), the
self-dependency is ignored, and both ends lie in the set `W`. -/
def dep_edge (M : PgObjectGraph) (W : List Nat) (d o : Nat) : Prop :=
  d ∈ build_dependencies M o ∧ d ≠ o ∧ d ∈ W ∧ o ∈ W

/-- The ordering property claimed for `PgDatabase.to_json`: every dependency of
an emitted object that is itself in the set appears at a strictly earlier
index of the output. -/
def respects_dependencies (M : PgObjectGraph) (W out : List Nat) : Prop :=
  ∀ o ∈ out, ∀ d ∈ build_dependencies M o, d ≠ o → d ∈ W →
    out.indexOf d < out.indexOf o

theorem is_blocked_eq_false_iff (M : PgObjectGraph) (o : Nat) (bs : List Nat) :
    is_blocked M o bs true = false ↔
      ∀ d ∈ build_dependencies M o, d ∈ bs → d = o := by
  have hb : is_blocked M o bs true =
      !((build_dependencies M o).filter
          (fun d => bs.contains d && d != o)).isEmpty := by
    simp [is_blocked]
  rw [hb, Bool.not_eq_false', List.isEmpty_iff, List.filter_eq_nil_iff]
  constructor
  · intro h d hd hdbs
    have := h d hd
    simp only [Bool.and_eq_true, List.elem_iff, bne_iff_ne, ne_eq, not_and,
      not_not] at this
    exact this hdbs
  · intro h d hd
    simp only [Bool.and_eq_true, List.elem_iff, bne_iff_ne, ne_eq, not_and,
      not_not]
    exact h d hd

theorem select_next_unblocked (M : PgObjectGraph) (x : Nat) (xs : List Nat)
    (h : ∃ u ∈ x :: xs, is_blocked M u (x :: xs) true = false) :
    is_blocked M (select_next M x xs) (x :: xs) true = false := by
  obtain ⟨u, hu, hub⟩ := h
  have hne : (x :: xs).find? (fun o => !(is_blocked M o (x :: xs) true)) ≠ none := by
    intro hnone
    rw [List.find?_eq_none] at hnone
    exact (hnone u hu) (by simp [hub])
  obtain ⟨o, ho⟩ := Option.ne_none_iff_exists'.mp hne
  have hsat := List.find?_some ho
  unfold select_next
  rw [ho]
  simpa using hsat

/-- Acyclicity of the dependency relation implies every non-empty remaining
subset of the working set contains an unblocked object. -/
theorem exists_unblocked (M : PgObjectGraph) (W : List Nat)
    (hacyc : ∀ x, ¬ Relation.TransGen (dep_edge M W) x x) :
    ∀ r : List Nat, r ≠ [] → r.Nodup → (∀ x ∈ r, x ∈ W) →
      ∃ u ∈ r, ∀ d ∈ build_dependencies M u, d ∈ r → d = u := by
  intro r hne hnd hsub
  by_contra hall
  push_neg at hall
  classical
  have hall2 : ∀ u ∈ r, ∃ d, d ∈ build_dependencies M u ∧ d ∈ r ∧ d ≠ u := by
    intro u hu
    obtain ⟨d, hd1, hd2, hd3⟩ := hall u hu
    exact ⟨d, hd1, hd2, hd3⟩
  let F : Nat → Nat := fun u =>
    if h : ∃ d, d ∈ build_dependencies M u ∧ d ∈ r ∧ d ≠ u then h.choose else u
  have hF : ∀ u ∈ r, F u ∈ build_dependencies M u ∧ F u ∈ r ∧ F u ≠ u := by
    intro u hu
    have hex := hall2 u hu
    simp only [F, dif_pos hex]
    exact hex.choose_spec
  obtain ⟨x0, hx0⟩ := List.exists_mem_of_ne_nil r hne
  let g : Nat → Nat := fun n => F^[n] x0
  have hg : ∀ n, g n ∈ r := by
    intro n
    induction n with
    | zero => simpa [g] using hx0
    | succ n ih =>
      have : g (n + 1) = F (g n) := by
        simp [g, Function.iterate_succ_apply']
      rw [this]
      exact (hF (g n) ih).2.1
  have hstep : ∀ n, dep_edge M W (g (n + 1)) (g n) := by
    intro n
    have hgn := hg n
    have hsucc : g (n + 1) = F (g n) := by
      simp [g, Function.iterate_succ_apply']
    obtain ⟨h1, h2, h3⟩ := hF (g n) hgn
    exact ⟨by rw [hsucc]; exact h1, by rw [hsucc]; exact h3,
      hsub _ (by rw [hsucc]; exact h2), hsub _ hgn⟩
  have hchain : ∀ b a, a < b → Relation.TransGen (dep_edge M W) (g b) (g a) := by
    intro b
    induction b with
    | zero => intro a ha; exact absurd ha (Nat.not_lt_zero a)
    | succ b ih =>
      intro a ha
      rcases Nat.lt_succ_iff_lt_or_eq.mp ha with h | h
      · exact Relation.TransGen.head (hstep b) (ih a h)
      · subst h
        exact Relation.TransGen.single (hstep a)
  have hcard : r.toFinset.card < (Finset.range (r.length + 1)).card := by
    rw [Finset.card_range, List.toFinset_card_of_nodup hnd]
    exact Nat.lt_succ_self _
  have hmaps : ∀ i ∈ Finset.range (r.length + 1), g i ∈ r.toFinset := by
    intro i _
    exact List.mem_toFinset.mpr (hg i)
  obtain ⟨i, hi, j, hj, hij, hgij⟩ :=
    Finset.exists_ne_map_eq_of_card_lt_of_maps_to hcard hmaps
  rcases lt_or_gt_of_ne hij with h | h
  · have hcycle := hchain j i h
    rw [hgij] at hcycle
    exact hacyc (g j) hcycle
  · have hcycle := hchain i j h
    rw [hgij] at hcycle
    exact hacyc (g j) hcycle

theorem order_objects_respects (M : PgObjectGraph) (W : List Nat)
    (hex : ∀ r : List Nat, r ≠ [] → r.Nodup → (∀ x ∈ r, x ∈ W) →
      ∃ u ∈ r, ∀ d ∈ build_dependencies M u, d ∈ r → d = u) :
    ∀ (n : Nat) (r : List Nat), r.length ≤ n → r.Nodup → (∀ x ∈ r, x ∈ W) →
      ∀ o ∈ order_objects M r, ∀ d ∈ build_dependencies M o, d ≠ o → d ∈ r →
        (order_objects M r).indexOf d < (order_objects M r).indexOf o := by
  intro n
  induction n with
  | zero =>
    intro r hr _ _ o ho
    have : r = [] := List.eq_nil_of_length_eq_zero (Nat.le_zero.mp hr)
    subst this
    simp [order_objects] at ho
  | succ n ih =>
    intro r hr hnd hsub o ho d hd hdo hdr
    match r, hr, hnd, hsub, ho, hdr with
    | x :: xs, hr, hnd, hsub, ho, hdr =>
      obtain ⟨u, hu, huprop⟩ := hex (x :: xs) (by simp) hnd hsub
      have hufree : is_blocked M u (x :: xs) true = false :=
        (is_blocked_eq_false_iff M u (x :: xs)).mpr huprop
      set o0 := select_next M x xs with ho0def
      have ho0mem : o0 ∈ x :: xs := select_next_mem M x xs
      have ho0free : is_blocked M o0 (x :: xs) true = false :=
        select_next_unblocked M x xs ⟨u, hu, hufree⟩
      have ho0prop : ∀ e ∈ build_dependencies M o0, e ∈ x :: xs → e = o0 :=
        (is_blocked_eq_false_iff M o0 (x :: xs)).mp ho0free
      have hunf : order_objects M (x :: xs) =
          o0 :: order_objects M ((x :: xs).erase o0) := by
        rw [order_objects]
      set r2 := (x :: xs).erase o0 with hr2def
      have hr2nd : r2.Nodup := hnd.erase o0
      have hr2sub : ∀ y ∈ r2, y ∈ W := fun y hy =>
        hsub y (List.mem_of_mem_erase hy)
      have hr2len : r2.length ≤ n := by
        rw [hr2def, List.length_erase_of_mem ho0mem]
        simpa using Nat.le_of_succ_le_succ (by simpa using hr)
      set out2 := order_objects M r2 with hout2def
      have hperm2 : out2.Perm r2 := order_objects_perm M r2.length r2 le_rfl
      have ho0notr2 : o0 ∉ r2 := by
        intro hmem
        exact absurd ((List.Nodup.mem_erase_iff hnd).mp hmem).1 (by simp)
      rw [hunf] at ho ⊢
      rcases List.mem_cons.mp ho with rfl | ho2
      · exact absurd (ho0prop d hd hdr) hdo
      · have honot0 : o ≠ o0 := by
          intro heq
          exact ho0notr2 (heq ▸ hperm2.mem_iff.mp ho2)
        by_cases hd0 : d = o0
        · subst hd0
          rw [List.indexOf_cons_self]
          rw [List.indexOf_cons_ne _ (by exact fun h => honot0 h.symm)]
          exact Nat.succ_pos _
        · have hdr2 : d ∈ r2 := (List.Nodup.mem_erase_iff hnd).mpr ⟨hd0, hdr⟩
          have hrec := ih r2 hr2len hr2nd hr2sub o ho2 d hd hdo hdr2
          rw [List.indexOf_cons_ne _ (by exact fun h => hd0 h.symm)]
          rw [List.indexOf_cons_ne _ (by exact fun h => honot0 h.symm)]
          exact Nat.succ_lt_succ hrec

/-- The transitive dependency relation is irreflexive whenever a numeric rank
decreases along dependency edges; this is how acyclicity of a concrete finite
input is certified. -/
theorem transGen_irrefl_of_rank (M : PgObjectGraph) (W : List Nat)
    (rank : Nat → Nat)
    (h : ∀ o ∈ W, ∀ d ∈ build_dependencies M o, d ∈ W → d ≠ o → rank d < rank o) :
    ∀ x, ¬ Relation.TransGen (dep_edge M W) x x := by
  have key : ∀ a b, Relation.TransGen (dep_edge M W) a b → rank a < rank b := by
    intro a b hab
    induction hab with
    | single h1 => exact h _ h1.2.2.2 _ h1.1 h1.2.2.1 h1.2.1
    | tail _ h1 ihr => exact lt_trans ihr (h _ h1.2.2.2 _ h1.1 h1.2.2.1 h1.2.1)
  intro x hx
  exact lt_irrefl _ (key x x hx)

/-- C1: for every finite input object set whose dependency relation (each
object's `get_dependencies()` plus its owning schema, self-dependency ignored)
is acyclic on the working set, the ordering produced by `PgDatabase.to_json`
places every object after its dependencies: every dependency of an output
object that is itself in the working set appears at a strictly earlier index. -/
theorem to_json_acyclic_ordering (M : PgObjectGraph) (objects : List Nat)
    (hnd : (working_objects M objects).Nodup)
    (hacyc : ∀ x, ¬ Relation.TransGen (dep_edge M (working_objects M objects)) x x) :
    respects_dependencies M (working_objects M objects) (to_json_order M objects) := by
  intro o ho d hd hdo hdW
  exact order_objects_respects M (working_objects M objects)
    (exists_unblocked M (working_objects M objects) hacyc)
    (working_objects M objects).length (working_objects M objects) le_rfl hnd
    (fun x hx => hx) o ho d hd hdo hdW

/-- A concrete three-object database: object 0 is the schema of everything,
object 2 (a view, say) depends on object 1. -/
def example_graph : PgObjectGraph where
  get_dependencies := fun o => if o = 2 then [1] else []
  schemaOf := fun _ => 0
  nameOf := fun o => if o = 0 then "s" else if o = 1 then "a" else "b"

/-- Witness for C1 at a concrete acyclic input. -/
theorem to_json_acyclic_ordering_witness :
    respects_dependencies example_graph (working_objects example_graph [2, 1, 0])
      (to_json_order example_graph [2, 1, 0]) :=
  to_json_acyclic_ordering example_graph [2, 1, 0] (by decide)
    (transGen_irrefl_of_rank example_graph (working_objects example_graph [2, 1, 0])
      (fun k => k) (by decide))

/-- C2: for every finite input object set, cycles included, the ordering loop of
`PgDatabase.to_json` terminates (the loop is realized here as a total function,
each pass removing exactly one object) and its output is a permutation of the
working set (the input objects whose schema is not in `SKIPPED_SCHEMAS`), so it
contains every working-set object exactly once. -/
theorem to_json_terminates_and_covers (M : PgObjectGraph) (objects : List Nat) :
    (to_json_order M objects).Perm (working_objects M objects) :=
  order_objects_perm M (working_objects M objects).length
    (working_objects M objects) le_rfl

/-- An entry of one of a schema's object collections, as far as `get_type` needs
it: its Python identity (`oid`) and its `name` attribute. -/
structure PgTypeObj where
  oid : Nat
  name : String
deriving DecidableEq

/-- The collections of a `PgSchema` scanned by `get_type`
(pg_types.py lines 299-313 and 361-369). -/
structure PgSchemaTypes where
  name : String
  types : List PgTypeObj
  enum_types : List PgTypeObj
  composite_types : List PgTypeObj
  tables : List PgTypeObj
  views : List PgTypeObj
  aggregates : List PgTypeObj
deriving DecidableEq

/-- The concatenation scanned by the `for` loop of `PgSchema.get_type`
(pg_types.py line 362): `self.types + self.enum_types + self.composite_types +
self.tables + self.views + self.aggregates`. -/
def PgSchemaTypes.collections (s : PgSchemaTypes) : List PgTypeObj :=
  s.types ++ s.enum_types ++ s.composite_types ++ s.tables ++ s.views ++
    s.aggregates

/-- Result of `PgSchema.get_type`: either the found collection entry, or a
freshly constructed `PgType(self, typename)` placeholder whose `oid` is the
allocation counter at construction time (Python allocates a new object, so two
placeholders synthesized by two calls are distinct objects). -/
inductive PgTypeValue
  | existing (t : PgTypeObj)
  | synthesized (schemaName : String) (typename : String) (oid : Nat)
deriving DecidableEq

/-- The `KeyError` raised by `PgSchema.get_type` (pg_types.py line 369), which
names the schema and the identifier. -/
inductive TypeLookupError
  | keyError (schemaName : String) (typename : String)
deriving DecidableEq

/-- The `for type in ...: if type.name == typename: return type` loop of
`PgSchema.get_type` (pg_types.py lines 362-364). -/
def scan_first (typename : String) : List PgTypeObj → Option PgTypeObj
  | [] => none
  | t :: ts => if t.name = typename then some t else scan_first typename ts

/-- `PgSchema.get_type` (pg_types.py lines 361-369), with an explicit allocation
counter `fresh` recording Python object creation: scan the six collections in
order; if nothing matches, synthesize a fresh `PgType` when the schema is silent
or the identifier has the array suffix, otherwise raise `KeyError`. -/
def PgSchemaTypes.get_type (s : PgSchemaTypes) (typename : String) (fresh : Nat) :
    Except TypeLookupError (PgTypeValue × Nat) :=
  match scan_first typename s.collections with
  | some t => .ok (.existing t, fresh)
  | none =>
    if SILENT_SCHEMAS.contains s.name || typename.endsWith "[]" then
      .ok (.synthesized s.name typename fresh, fresh + 1)
    else
      .error (.keyError s.name typename)

theorem scan_first_eq_find (typename : String) (l : List PgTypeObj) :
    scan_first typename l = l.find? (fun t => t.name == typename) := by
  induction l with
  | nil => rfl
  | cons t ts ih =>
    by_cases h : t.name = typename
    · simp [scan_first, List.find?, h, ih]
    · have hb : (t.name == typename) = false := beq_eq_false_iff_ne.mpr h
      simp [scan_first, List.find?, h, hb, ih]

/-- C3: looking up `n` as a type in schema `S` returns the first object named
`n` in the concatenation of `S`'s Types, EnumTypes, CompositeTypes, Tables,
Views and Aggregates (that priority order); with no match it synthesizes a bare
placeholder type exactly when `S` is silent (the default schema `public` or the
catalog schema `pg_catalog`) or `n` ends with the array suffix, and otherwise
raises a lookup failure naming the schema and the identifier. -/
theorem get_type_resolution (s : PgSchemaTypes) (n : String) (fresh : Nat) :
    s.get_type n fresh =
      match s.collections.find? (fun t => t.name == n) with
      | some t => .ok (.existing t, fresh)
      | none =>
        if SILENT_SCHEMAS.contains s.name || n.endsWith "[]" then
          .ok (.synthesized s.name n fresh, fresh + 1)
        else
          .error (.keyError s.name n) := by
  unfold PgSchemaTypes.get_type
  rw [scan_first_eq_find]

/-- `PgTypeRef.dereference` (pg_types.py lines 1406-1410) for a schema registry:
`self.registry.get_type(self.ref)`. (The `except AttributeError` fallback to
`registry.get` applies only to the plain-dict registries of the from-database
loading path, not to schema-owned refs.) -/
def PgTypeRef.dereference (registry : PgSchemaTypes) (ref : String) (fresh : Nat) :
    Except TypeLookupError (PgTypeValue × Nat) :=
  registry.get_type ref fresh

/-- An empty default schema: every lookup in it takes the silent fallback. -/
def example_public_schema : PgSchemaTypes :=
  ⟨"public", [], [], [], [], [], []⟩

/-- C7 counterexample: dereferencing the same TypeRef twice when the reference
falls back to a synthesized placeholder constructs a fresh `PgType` each time
(the allocation counter advances), so the two results are distinct objects, not
the identical target the claim requires. -/
theorem dereference_not_identical :
    PgTypeRef.dereference example_public_schema "int4" 0 =
        .ok (.synthesized "public" "int4" 0, 1) ∧
    PgTypeRef.dereference example_public_schema "int4" 1 =
        .ok (.synthesized "public" "int4" 1, 2) ∧
    PgTypeValue.synthesized "public" "int4" 0 ≠
        PgTypeValue.synthesized "public" "int4" 1 := by
  refine ⟨rfl, rfl, by decide⟩

/-- C7 amended: resolving the same TypeRef twice returns the identical target
object whenever the identifier resolves to an object of the schema's
collections; only the silent-schema/array fallback synthesizes a fresh
placeholder per call, giving equal-valued but non-identical objects. -/
theorem dereference_idempotent_on_existing (s : PgSchemaTypes) (ref : String)
    (f1 f2 : Nat) (t : PgTypeObj)
    (h : scan_first ref s.collections = some t) :
    PgTypeRef.dereference s ref f1 = .ok (.existing t, f1) ∧
    PgTypeRef.dereference s ref f2 = .ok (.existing t, f2) := by
  constructor <;>
    · unfold PgTypeRef.dereference PgSchemaTypes.get_type
      rw [h]

/-- A schema owning one enum type, for the C7 witness. -/
def example_shop_schema : PgSchemaTypes :=
  ⟨"shop", [], [⟨7, "order_state"⟩], [], [], [], []⟩

/-- Witness for the amended C7 at a concrete schema. -/
theorem dereference_idempotent_witness :
    PgTypeRef.dereference example_shop_schema "order_state" 0 =
        .ok (.existing ⟨7, "order_state"⟩, 0) ∧
    PgTypeRef.dereference example_shop_schema "order_state" 5 =
        .ok (.existing ⟨7, "order_state"⟩, 5) :=
  dereference_idempotent_on_existing example_shop_schema "order_state" 0 5
    ⟨7, "order_state"⟩ (by decide)

/-- The shape of values in the re-serialized document (`OrderedDict`s, lists,
strings, booleans). -/
inductive JsonValue
  | s (v : String)
  | b (v : Bool)
  | arr (items : List JsonValue)
  | obj (fields : List (String × JsonValue))

/-- The `AttributeError` Python raises on accessing a missing attribute. -/
inductive PyAttrError
  | attributeError
deriving DecidableEq

/-- What `PgForeignKey.ref_table` may hold: a bare string (as stored by
`PgForeignKey.load`, pg_types.py lines 751-761, which passes
`data['references']['table']['name']`), or an actual table object with `name`
and `schema.name` attributes (as stored by the from-database loader,
pg_types.py line 743). -/
inductive RefTarget
  | str (s : String)
  | tableObj (name : String) (schemaName : String)
deriving DecidableEq

/-- The document form of one `foreign_keys` entry. -/
structure PgForeignKeyData where
  name : String
  columns : List String
  refTableSchema : String
  refTableName : String
  refColumns : List String
  on_update : Option String
  on_delete : Option String

/-- The attribute record of a constructed `PgForeignKey`
(pg_types.py lines 669-677). -/
structure PgForeignKeyObj where
  schema : RefTarget
  name : String
  columns : List String
  ref_table : RefTarget
  ref_columns : List String
  on_update : Option String
  on_delete : Option String

/-- `PgForeignKey.load` (pg_types.py lines 751-761): both `schema` and
`ref_table` receive the raw strings from the document, not resolved objects. -/
def PgForeignKey.load (d : PgForeignKeyData) : PgForeignKeyObj where
  schema := .str d.refTableSchema
  name := d.name
  columns := d.columns
  ref_table := .str d.refTableName
  ref_columns := d.refColumns
  on_update := d.on_update
  on_delete := d.on_delete

/-- Python attribute access `x.name` on a `ref_table` slot: a plain string has
no `name` attribute. -/
def RefTarget.nameAttr : RefTarget → Except PyAttrError String
  | .str _ => .error .attributeError
  | .tableObj n _ => .ok n

/-- Python attribute access `x.schema.name` on a `ref_table` slot. -/
def RefTarget.schemaNameAttr : RefTarget → Except PyAttrError String
  | .str _ => .error .attributeError
  | .tableObj _ sn => .ok sn

/-- `PgForeignKey.to_json` (pg_types.py lines 685-701): it reads
`self.ref_table.name` and `self.ref_table.schema.name` while building the
`references` entry, then appends `on_update` and `on_delete` when set. -/
def PgForeignKey.to_json (fk : PgForeignKeyObj) : Except PyAttrError JsonValue := do
  let rn ← fk.ref_table.nameAttr
  let rs ← fk.ref_table.schemaNameAttr
  let base : List (String × JsonValue) :=
    [("name", .s fk.name),
     ("columns", .arr (fk.columns.map JsonValue.s)),
     ("references", .obj
        [("table", .obj [("name", .s rn), ("schema", .s rs)]),
         ("columns", .arr (fk.ref_columns.map JsonValue.s))])]
  let withUpd : List (String × JsonValue) :=
    match fk.on_update with
    | some u => base ++ [("on_update", JsonValue.s u)]
    | none => base
  let withDel : List (String × JsonValue) :=
    match fk.on_delete with
    | some v => withUpd ++ [("on_delete", JsonValue.s v)]
    | none => withUpd
  return .obj withDel

/-- C4 (code bug): re-serializing any foreign key produced by
`PgForeignKey.load` fails with `AttributeError` instead of reproducing the
original referenced table name, schema and column lists — `load` stores the
referenced table as a bare string and `to_json` reads `.name` and
`.schema.name` off it. So a table loaded with foreign keys cannot round-trip. -/
theorem foreign_key_to_json_after_load_fails (d : PgForeignKeyData) :
    PgForeignKey.to_json (PgForeignKey.load d) = .error .attributeError := rfl

/-- A table column as the differ sees it (matched by name only). -/
structure PgColumnD where
  name : String
deriving DecidableEq

/-- A table as the differ sees it. -/
structure PgTableD where
  name : String
  columns : List PgColumnD
deriving DecidableEq

/-- A view as the differ sees it. -/
structure PgViewD where
  name : String
deriving DecidableEq

/-- A composite type as the differ sees it. -/
structure PgCompositeTypeD where
  name : String
deriving DecidableEq

/-- A function as the differ sees it. `argument_type_refs` and
`return_type_ref` are the Python identities of the argument and return
`PgTypeRef` objects: `function_matches` compares them with Python `!=`, which
for these classes is identity comparison. -/
structure PgFunctionD where
  name : String
  argument_type_refs : List Nat
  return_type_ref : Nat
  src : String
deriving DecidableEq

/-- A schema as `diff_schema` sees it. -/
structure PgSchemaD where
  name : String
  tables : List PgTableD
  views : List PgViewD
  composite_types : List PgCompositeTypeD
  functions : List PgFunctionD
deriving DecidableEq

/-- `function_matches` (diff.py lines 149-163): same name, same argument count,
identical (by object identity) argument types pairwise, identical return
type. -/
def function_matches (current_function target_function : PgFunctionD) : Bool :=
  current_function.name == target_function.name &&
  current_function.argument_type_refs.length ==
    target_function.argument_type_refs.length &&
  (current_function.argument_type_refs.zip
      target_function.argument_type_refs).all (fun p => p.1 == p.2) &&
  current_function.return_type_ref == target_function.return_type_ref

/-- `find_new_tables` (diff.py lines 195-208). -/
def find_new_tables (current_schema target_schema : PgSchemaD) : List PgTableD :=
  target_schema.tables.filter (fun target_table =>
    (current_schema.tables.find? (fun t => t.name == target_table.name)).isNone)

/-- `find_removed_tables` (diff.py lines 211-224). -/
def find_removed_tables (current_schema target_schema : PgSchemaD) : List PgTableD :=
  current_schema.tables.filter (fun current_table =>
    (target_schema.tables.find? (fun t => t.name == current_table.name)).isNone)

/-- `find_new_views` (diff.py lines 166-177). -/
def find_new_views (current_schema target_schema : PgSchemaD) : List PgViewD :=
  target_schema.views.filter (fun target_view =>
    (current_schema.views.find? (fun v => v.name == target_view.name)).isNone)

/-- `find_removed_views` (diff.py lines 180-192). -/
def find_removed_views (current_schema target_schema : PgSchemaD) : List PgViewD :=
  current_schema.views.filter (fun current_view =>
    (target_schema.views.find? (fun v => v.name == current_view.name)).isNone)

/-- `find_new_types` (diff.py lines 306-318). -/
def find_new_types (current_schema target_schema : PgSchemaD) :
    List PgCompositeTypeD :=
  target_schema.composite_types.filter (fun target_type =>
    (current_schema.composite_types.find?
      (fun t => t.name == target_type.name)).isNone)

/-- `find_removed_types` (diff.py lines 321-333). -/
def find_removed_types (current_schema target_schema : PgSchemaD) :
    List PgCompositeTypeD :=
  current_schema.composite_types.filter (fun current_type =>
    (target_schema.composite_types.find?
      (fun t => t.name == current_type.name)).isNone)

/-- `find_new_functions` (diff.py lines 244-257). -/
def find_new_functions (current_schema target_schema : PgSchemaD) :
    List PgFunctionD :=
  target_schema.functions.filter (fun target_function =>
    (current_schema.functions.find?
      (fun f => function_matches f target_function)).isNone)

/-- `find_removed_functions` (diff.py lines 260-273). -/
def find_removed_functions (current_schema target_schema : PgSchemaD) :
    List PgFunctionD :=
  current_schema.functions.filter (fun current_function =>
    (target_schema.functions.find?
      (fun f => function_matches f current_function)).isNone)

/-- `find_modified_functions` (diff.py lines 276-289): when a matching target
function exists and its source text differs, yield the target function. -/
def find_modified_functions (current_schema target_schema : PgSchemaD) :
    List PgFunctionD :=
  current_schema.functions.filterMap (fun current_function =>
    match target_schema.functions.find?
        (fun f => function_matches f current_function) with
    | none => none
    | some target_function =>
      if target_function.src != current_function.src then some target_function
      else none)

/-- A column-level step of a modified table. -/
inductive ColumnStep
  | dropColumn (c : PgColumnD)
  | addColumn (c : PgColumnD)
deriving DecidableEq

/-- Modelled from the spec: `PgTable.diff`, called by `find_modified_tables`
(diff.py line 238), is not present in the provided sources (the `pg_types`
module shipped here predates the differ). Per the spec's table structural diff:
a drop-column step for each column present in current but absent in target
(matched by name), then an add-column step for each column present in target
but absent in current; a table with no steps is not modified (`diff` returns
`None`). -/
def PgTableD.diff (current_table target_table : PgTableD) :
    Option (List ColumnStep) :=
  let dropped := (current_table.columns.filter (fun c =>
      (target_table.columns.find? (fun d => d.name == c.name)).isNone)).map
      ColumnStep.dropColumn
  let added := (target_table.columns.filter (fun c =>
      (current_table.columns.find? (fun d => d.name == c.name)).isNone)).map
      ColumnStep.addColumn
  let steps := dropped ++ added
  if steps.isEmpty then none else some steps

/-- `find_modified_tables` (diff.py lines 227-241): for each current table with
a same-named target table, yield the non-`None` structural diff. -/
def find_modified_tables (current_schema target_schema : PgSchemaD) :
    List (List ColumnStep) :=
  current_schema.tables.filterMap (fun current_table =>
    match target_schema.tables.find?
        (fun t => t.name == current_table.name) with
    | none => none
    | some target_table => current_table.diff target_table)

/-- One operation written out by the differ (each `sys.stdout.write` group of
`diff_schema` / `diff_db` becomes one abstract operation; the SQL renderers
are the excluded presentation layer). -/
inductive DiffOp
  | dropFunction (f : PgFunctionD)
  | dropTable (t : PgTableD)
  | dropView (v : PgViewD)
  | dropCompositeType (c : PgCompositeTypeD)
  | createTable (t : PgTableD)
  | createView (v : PgViewD)
  | alterTable (s : ColumnStep)
  | createCompositeType (c : PgCompositeTypeD)
  | createFunction (f : PgFunctionD)
  | replaceFunction (f : PgFunctionD)
  | dropOperator (key : Nat)
  | createOperator (key : Nat)
  | addSchema (name : String)
  | dropTrigger (key : Nat)
  | createTrigger (key : Nat)
deriving DecidableEq

/-- The `NameError` Python raises on calling a name absent from the module
namespace. -/
inductive PyNameError
  | nameError (name : String)
deriving DecidableEq

/-- The operation sequence of `diff_schema`'s ten loops (diff.py lines 90-146)
in source order — dropped functions, dropped tables, dropped views, dropped
types, new tables, new views, the column steps of each modified table, new
types, new functions, and finally modified (replaced) functions. This full
sequence is emitted only when the dropped-views loop is empty (see
`diff_schema`). -/
def diff_schema_emitted (current_schema target_schema : PgSchemaD) : List DiffOp :=
  (find_removed_functions current_schema target_schema).map DiffOp.dropFunction ++
  (find_removed_tables current_schema target_schema).map DiffOp.dropTable ++
  (find_removed_views current_schema target_schema).map DiffOp.dropView ++
  (find_removed_types current_schema target_schema).map DiffOp.dropCompositeType ++
  (find_new_tables current_schema target_schema).map DiffOp.createTable ++
  (find_new_views current_schema target_schema).map DiffOp.createView ++
  ((find_modified_tables current_schema target_schema).map
      (fun steps => steps.map DiffOp.alterTable)).flatten ++
  (find_new_types current_schema target_schema).map DiffOp.createCompositeType ++
  (find_new_functions current_schema target_schema).map DiffOp.createFunction ++
  (find_modified_functions current_schema target_schema).map DiffOp.replaceFunction

/-- `diff_schema` (diff.py lines 90-146) as shipped: the removed-views loop at
lines 99-101 calls `render_drop_view_sql`, a name diff.py never brings into
scope (lines 8-12 pull in `render_view_sql` but not the drop variant, which
exists only inside sql_renderer), so the first removed view raises `NameError`
after the dropped-functions and dropped-tables writes, and nothing later is
emitted — in particular no drop-view operation ever is. The result pairs the
operations written before returning or raising with the error, if any. -/
def diff_schema (current_schema target_schema : PgSchemaD) :
    List DiffOp × Option PyNameError :=
  match find_removed_views current_schema target_schema with
  | _ :: _ =>
    ((find_removed_functions current_schema target_schema).map
        DiffOp.dropFunction ++
     (find_removed_tables current_schema target_schema).map DiffOp.dropTable,
     some (PyNameError.nameError "render_drop_view_sql"))
  | [] => (diff_schema_emitted current_schema target_schema, none)

/-- A database as `diff_db` sees it. `operators` is modelled from the spec:
`diff_db` (diff.py lines 57-67 and 336-347) iterates `database.operators`, a
key-indexed registry that the `PgDatabase` class in the provided sources never
constructs; per the spec it is a database-global mapping compared by key, like
`triggers`. -/
structure PgDatabaseD where
  operators : List (Nat × Nat)
  schemas : List (String × PgSchemaD)
  triggers : List (Nat × Nat)

/-- `find_removed_operators` (diff.py lines 336-340). -/
def find_removed_operators (current_db target_db : PgDatabaseD) : List Nat :=
  (current_db.operators.filter (fun p =>
    !((target_db.operators.map Prod.fst).contains p.1))).map Prod.snd

/-- `find_new_operators` (diff.py lines 343-347). -/
def find_new_operators (current_db target_db : PgDatabaseD) : List Nat :=
  (target_db.operators.filter (fun p =>
    !((current_db.operators.map Prod.fst).contains p.1))).map Prod.snd

/-- `find_removed_triggers` (diff.py lines 299-303). -/
def find_removed_triggers (current_db target_db : PgDatabaseD) : List Nat :=
  (current_db.triggers.filter (fun p =>
    !((target_db.triggers.map Prod.fst).contains p.1))).map Prod.snd

/-- `find_new_triggers` (diff.py lines 292-296). -/
def find_new_triggers (current_db target_db : PgDatabaseD) : List Nat :=
  (target_db.triggers.filter (fun p =>
    !((current_db.triggers.map Prod.fst).contains p.1))).map Prod.snd

/-- The per-schema loop of `diff_db` (diff.py lines 69-75): for each target
schema, either the schema diff (when the current database has a schema of that
name) or an add-schema line; a `NameError` inside `diff_schema` aborts the loop,
keeping the operations already written. -/
def diff_db_schemas (current_db : PgDatabaseD) :
    List (String × PgSchemaD) → List DiffOp × Option PyNameError
  | [] => ([], none)
  | p :: rest =>
    match current_db.schemas.find? (fun q => q.1 == p.1) with
    | some q =>
      match diff_schema q.2 p.2 with
      | (ops, some e) => (ops, some e)
      | (ops, none) =>
        match diff_db_schemas current_db rest with
        | (more, err) => (ops ++ more, err)
    | none =>
      match diff_db_schemas current_db rest with
      | (more, err) => (DiffOp.addSchema p.1 :: more, err)

/-- `diff_db` (diff.py lines 56-87): removed operators, new operators, then the
per-schema loop, then removed and new triggers; a `NameError` raised inside a
schema diff propagates out of `diff_db` before the trigger loops run. -/
def diff_db (current_db target_db : PgDatabaseD) :
    List DiffOp × Option PyNameError :=
  match diff_db_schemas current_db target_db.schemas with
  | (ops, some e) =>
    ((find_removed_operators current_db target_db).map DiffOp.dropOperator ++
     (find_new_operators current_db target_db).map DiffOp.createOperator ++
     ops, some e)
  | (ops, none) =>
    ((find_removed_operators current_db target_db).map DiffOp.dropOperator ++
     (find_new_operators current_db target_db).map DiffOp.createOperator ++
     ops ++
     (find_removed_triggers current_db target_db).map DiffOp.dropTrigger ++
     (find_new_triggers current_db target_db).map DiffOp.createTrigger, none)

theorem find?_eq_some_of_unique {α : Type} (p : α → Bool) (l : List α) (t : α)
    (ht : t ∈ l) (hp : p t = true) (huniq : ∀ x ∈ l, p x = true → x = t) :
    l.find? p = some t := by
  induction l with
  | nil => cases ht
  | cons a l ih =>
    cases hpa : p a with
    | true =>
      have : a = t := huniq a (List.mem_cons_self a l) hpa
      rw [List.find?_cons_of_pos _ hpa, this]
    | false =>
      rw [List.find?_cons_of_neg _ (by simp [hpa])]
      have htl : t ∈ l := by
        rcases List.mem_cons.mp ht with rfl | h
        · rw [hpa] at hp; cases hp
        · exact h
      exact ih htl (fun x hx => huniq x (List.mem_cons_of_mem a hx))

theorem zip_self_all (l : List Nat) :
    (l.zip l).all (fun p => p.1 == p.2) = true := by
  induction l with
  | nil => rfl
  | cons a l ih => simpa using ih

theorem function_matches_refl (f : PgFunctionD) :
    function_matches f f = true := by
  simp [function_matches, zip_self_all]

/-- Well-formedness of a schema for the self-diff property, true of every
schema the loader can build from a valid document: table names are unique in
the schema, and each function object has its own `return_type` reference
object (`PgFunction.load` constructs a fresh `PgTypeRef` per function, so the
identities are pairwise distinct). -/
def schema_wf (s : PgSchemaD) : Prop :=
  (s.tables.map PgTableD.name).Nodup ∧
  (s.functions.map PgFunctionD.return_type_ref).Nodup

theorem table_diff_self (t : PgTableD) : t.diff t = none := by
  unfold PgTableD.diff
  have hfilter : t.columns.filter (fun c =>
      (t.columns.find? (fun d => d.name == c.name)).isNone) = [] := by
    rw [List.filter_eq_nil_iff]
    intro c hc
    have : (t.columns.find? (fun d => d.name == c.name)).isSome = true := by
      rw [List.find?_isSome]
      exact ⟨c, hc, by simp⟩
    simp only [Option.isNone_iff_eq_none]
    intro hnone
    rw [hnone] at this
    cases this
  simp [hfilter]

theorem diff_schema_self (s : PgSchemaD) (hwf : schema_wf s) :
    diff_schema s s = ([], none) := by
  obtain ⟨htn, hfr⟩ := hwf
  have htinj := List.inj_on_of_nodup_map htn
  have hfinj := List.inj_on_of_nodup_map hfr
  have hremfn : find_removed_functions s s = [] := by
    rw [find_removed_functions, List.filter_eq_nil_iff]
    intro f hf
    have : (s.functions.find? (fun g => function_matches g f)).isSome = true := by
      rw [List.find?_isSome]
      exact ⟨f, hf, function_matches_refl f⟩
    simp only [Bool.not_eq_true, Option.isNone_iff_eq_none]
    intro hnone
    rw [hnone] at this
    cases this
  have hnewfn : find_new_functions s s = [] := by
    rw [find_new_functions, List.filter_eq_nil_iff]
    intro f hf
    have : (s.functions.find? (fun g => function_matches g f)).isSome = true := by
      rw [List.find?_isSome]
      exact ⟨f, hf, function_matches_refl f⟩
    simp only [Bool.not_eq_true, Option.isNone_iff_eq_none]
    intro hnone
    rw [hnone] at this
    cases this
  have hremt : find_removed_tables s s = [] := by
    rw [find_removed_tables, List.filter_eq_nil_iff]
    intro t ht
    have : (s.tables.find? (fun u => u.name == t.name)).isSome = true := by
      rw [List.find?_isSome]
      exact ⟨t, ht, by simp⟩
    simp only [Bool.not_eq_true, Option.isNone_iff_eq_none]
    intro hnone
    rw [hnone] at this
    cases this
  have hnewt : find_new_tables s s = [] := by
    rw [find_new_tables, List.filter_eq_nil_iff]
    intro t ht
    have : (s.tables.find? (fun u => u.name == t.name)).isSome = true := by
      rw [List.find?_isSome]
      exact ⟨t, ht, by simp⟩
    simp only [Bool.not_eq_true, Option.isNone_iff_eq_none]
    intro hnone
    rw [hnone] at this
    cases this
  have hremv : find_removed_views s s = [] := by
    rw [find_removed_views, List.filter_eq_nil_iff]
    intro v hv
    have : (s.views.find? (fun u => u.name == v.name)).isSome = true := by
      rw [List.find?_isSome]
      exact ⟨v, hv, by simp⟩
    simp only [Bool.not_eq_true, Option.isNone_iff_eq_none]
    intro hnone
    rw [hnone] at this
    cases this
  have hnewv : find_new_views s s = [] := by
    rw [find_new_views, List.filter_eq_nil_iff]
    intro v hv
    have : (s.views.find? (fun u => u.name == v.name)).isSome = true := by
      rw [List.find?_isSome]
      exact ⟨v, hv, by simp⟩
    simp only [Bool.not_eq_true, Option.isNone_iff_eq_none]
    intro hnone
    rw [hnone] at this
    cases this
  have hremty : find_removed_types s s = [] := by
    rw [find_removed_types, List.filter_eq_nil_iff]
    intro c hc
    have : (s.composite_types.find? (fun u => u.name == c.name)).isSome = true := by
      rw [List.find?_isSome]
      exact ⟨c, hc, by simp⟩
    simp only [Bool.not_eq_true, Option.isNone_iff_eq_none]
    intro hnone
    rw [hnone] at this
    cases this
  have hnewty : find_new_types s s = [] := by
    rw [find_new_types, List.filter_eq_nil_iff]
    intro c hc
    have : (s.composite_types.find? (fun u => u.name == c.name)).isSome = true := by
      rw [List.find?_isSome]
      exact ⟨c, hc, by simp⟩
    simp only [Bool.not_eq_true, Option.isNone_iff_eq_none]
    intro hnone
    rw [hnone] at this
    cases this
  have hmodt : find_modified_tables s s = [] := by
    rw [find_modified_tables, List.filterMap_eq_nil_iff]
    intro t ht
    have hfind : s.tables.find? (fun u => u.name == t.name) = some t := by
      apply find?_eq_some_of_unique (fun u => u.name == t.name) s.tables t ht
        (by simp)
      intro x hx hxe
      exact htinj hx ht (by simpa using hxe)
    rw [hfind]
    exact table_diff_self t
  have hmodf : find_modified_functions s s = [] := by
    rw [find_modified_functions, List.filterMap_eq_nil_iff]
    intro f hf
    have hfind : s.functions.find? (fun g => function_matches g f) = some f := by
      apply find?_eq_some_of_unique (fun g => function_matches g f) s.functions
        f hf (function_matches_refl f)
      intro x hx hxe
      have : x.return_type_ref = f.return_type_ref := by
        simp only [function_matches, Bool.and_eq_true, beq_iff_eq] at hxe
        exact hxe.2
      exact hfinj hx hf this
    rw [hfind]
    simp
  have hemit : diff_schema_emitted s s = [] := by
    rw [diff_schema_emitted, hremfn, hnewfn, hremt, hnewt, hremv, hnewv,
      hremty, hnewty, hmodt, hmodf]
    rfl
  simp only [diff_schema, hremv, hemit]

theorem assoc_find_self {β : Type} (l : List (String × β))
    (hk : (l.map Prod.fst).Nodup) (p : String × β) (hp : p ∈ l) :
    l.find? (fun q => q.1 == p.1) = some p := by
  apply find?_eq_some_of_unique (fun q => q.1 == p.1) l p hp (by simp)
  intro x hx hxe
  exact List.inj_on_of_nodup_map hk hx hp (by simpa using hxe)

/-- C5: diffing a schema against itself (`diff_schema` with current = target)
and diffing a database against itself (`diff_db` with the same database on both
sides) yield zero add, drop and modify operations for every object kind, and no
error, assuming the well-formedness every valid load produces (unique table
names per schema, per-function `return_type` reference objects, unique schema
names in the database). -/
theorem diff_self_empty :
    (∀ s : PgSchemaD, schema_wf s → diff_schema s s = ([], none)) ∧
    (∀ db : PgDatabaseD, (db.schemas.map Prod.fst).Nodup →
      (∀ p ∈ db.schemas, schema_wf p.2) → diff_db db db = ([], none)) := by
  constructor
  · exact diff_schema_self
  · intro db hk hwf
    have hkeyfilter : ∀ l : List (Nat × Nat),
        l.filter (fun p => !((l.map Prod.fst).contains p.1)) = [] := by
      intro l
      rw [List.filter_eq_nil_iff]
      intro p hp
      simp [List.elem_iff, List.mem_map_of_mem Prod.fst hp]
    have hops : find_removed_operators db db = [] := by
      unfold find_removed_operators
      rw [hkeyfilter db.operators]
      rfl
    have hops2 : find_new_operators db db = [] := by
      unfold find_new_operators
      rw [hkeyfilter db.operators]
      rfl
    have htr : find_removed_triggers db db = [] := by
      unfold find_removed_triggers
      rw [hkeyfilter db.triggers]
      rfl
    have htr2 : find_new_triggers db db = [] := by
      unfold find_new_triggers
      rw [hkeyfilter db.triggers]
      rfl
    have hsch : ∀ l : List (String × PgSchemaD), (∀ p ∈ l, p ∈ db.schemas) →
        diff_db_schemas db l = ([], none) := by
      intro l
      induction l with
      | nil => intro _; rfl
      | cons p rest ih =>
        intro hsub
        have hp : p ∈ db.schemas := hsub p (List.mem_cons_self p rest)
        have hfind := assoc_find_self db.schemas hk p hp
        have hrec := ih (fun q hq => hsub q (List.mem_cons_of_mem p hq))
        simp only [diff_db_schemas, hfind, diff_schema_self p.2 (hwf p hp),
          hrec, List.nil_append]
    have hsall : diff_db_schemas db db.schemas = ([], none) :=
      hsch db.schemas (fun _ hq => hq)
    simp only [diff_db, hsall, hops, hops2, htr, htr2]
    rfl

/-- A concrete database for the C5 witness: one schema with one table, one
view, one composite type and one function, plus an operator and a trigger
entry. -/
def example_schema_d : PgSchemaD :=
  ⟨"shop",
   [⟨"order", [⟨"id"⟩, ⟨"created"⟩]⟩, ⟨"order_line", [⟨"id"⟩]⟩],
   [⟨"order_summary"⟩],
   [⟨"address"⟩],
   [⟨"order_total", [11, 12], 13, "select 1"⟩,
    ⟨"order_total", [14], 15, "select 2"⟩]⟩

def example_db_d : PgDatabaseD :=
  ⟨[(41, 410)], [("shop", example_schema_d)], [(51, 510)]⟩

/-- Witness for C5 at a concrete schema and database. -/
theorem diff_self_empty_witness :
    diff_schema example_schema_d example_schema_d = ([], none) ∧
    diff_db example_db_d example_db_d = ([], none) :=
  ⟨diff_self_empty.1 example_schema_d ⟨by decide, by decide⟩,
   diff_self_empty.2 example_db_d (by decide)
     (by intro p hp; fin_cases hp; exact ⟨by decide, by decide⟩)⟩

/-- The position of each operation kind in the emission order contract of
`diff_schema`. -/
def emission_phase : DiffOp → Nat
  | .dropFunction _ => 0
  | .dropTable _ => 1
  | .dropView _ => 2
  | .dropCompositeType _ => 3
  | .createTable _ => 4
  | .createView _ => 5
  | .alterTable _ => 6
  | .createCompositeType _ => 7
  | .createFunction _ => 8
  | .replaceFunction _ => 9
  | .dropOperator _ => 10
  | .createOperator _ => 11
  | .addSchema _ => 12
  | .dropTrigger _ => 13
  | .createTrigger _ => 14

theorem sorted_append_of_const_le (c : Nat) (l r : List Nat)
    (hl : ∀ x ∈ l, x = c) (hr : r.Sorted (· ≤ ·)) (hcr : ∀ y ∈ r, c ≤ y) :
    (l ++ r).Sorted (· ≤ ·) ∧ ∀ y ∈ l ++ r, c ≤ y := by
  induction l with
  | nil => exact ⟨hr, by simpa using hcr⟩
  | cons a l ih =>
    have ha : a = c := hl a (List.mem_cons_self a l)
    obtain ⟨ihs, ihb⟩ := ih (fun x hx => hl x (List.mem_cons_of_mem a hx))
    constructor
    · rw [List.cons_append, List.sorted_cons]
      exact ⟨fun b hb => ha ▸ ihb b hb, ihs⟩
    · intro y hy
      rcases List.mem_cons.mp hy with rfl | hy2
      · exact le_of_eq ha.symm
      · exact ihb y hy2

theorem mem_map_phase_const {α : Type} (ctor : α → DiffOp) (c : Nat)
    (hc : ∀ a, emission_phase (ctor a) = c) (l : List α) :
    ∀ x ∈ (l.map ctor).map emission_phase, x = c := by
  intro x hx
  obtain ⟨op, hop, rfl⟩ := List.mem_map.mp hx
  obtain ⟨a, _, rfl⟩ := List.mem_map.mp hop
  exact hc a

theorem diff_schema_emitted_sorted (current_schema target_schema : PgSchemaD) :
    ((diff_schema_emitted current_schema target_schema).map
      emission_phase).Sorted (· ≤ ·) := by
  have halter : ∀ x ∈ (((find_modified_tables current_schema target_schema).map
      (fun steps => steps.map DiffOp.alterTable)).flatten).map emission_phase,
      x = 6 := by
    intro x hx
    obtain ⟨op, hop, rfl⟩ := List.mem_map.mp hx
    obtain ⟨block, hblock, hopin⟩ := List.mem_flatten.mp hop
    obtain ⟨steps, _, rfl⟩ := List.mem_map.mp hblock
    obtain ⟨st, _, rfl⟩ := List.mem_map.mp hopin
    rfl
  have h9 := sorted_append_of_const_le 9 _ []
    (mem_map_phase_const DiffOp.replaceFunction 9 (fun _ => rfl)
      (find_modified_functions current_schema target_schema))
    List.sorted_nil (by intro y hy; cases hy)
  rw [List.append_nil] at h9
  have h8 := sorted_append_of_const_le 8 _ _
    (mem_map_phase_const DiffOp.createFunction 8 (fun _ => rfl)
      (find_new_functions current_schema target_schema))
    h9.1 (fun y hy => le_trans (by norm_num) (h9.2 y hy))
  have h7 := sorted_append_of_const_le 7 _ _
    (mem_map_phase_const DiffOp.createCompositeType 7 (fun _ => rfl)
      (find_new_types current_schema target_schema))
    h8.1 (fun y hy => le_trans (by norm_num) (h8.2 y hy))
  have h6 := sorted_append_of_const_le 6 _ _ halter
    h7.1 (fun y hy => le_trans (by norm_num) (h7.2 y hy))
  have h5 := sorted_append_of_const_le 5 _ _
    (mem_map_phase_const DiffOp.createView 5 (fun _ => rfl)
      (find_new_views current_schema target_schema))
    h6.1 (fun y hy => le_trans (by norm_num) (h6.2 y hy))
  have h4 := sorted_append_of_const_le 4 _ _
    (mem_map_phase_const DiffOp.createTable 4 (fun _ => rfl)
      (find_new_tables current_schema target_schema))
    h5.1 (fun y hy => le_trans (by norm_num) (h5.2 y hy))
  have h3 := sorted_append_of_const_le 3 _ _
    (mem_map_phase_const DiffOp.dropCompositeType 3 (fun _ => rfl)
      (find_removed_types current_schema target_schema))
    h4.1 (fun y hy => le_trans (by norm_num) (h4.2 y hy))
  have h2 := sorted_append_of_const_le 2 _ _
    (mem_map_phase_const DiffOp.dropView 2 (fun _ => rfl)
      (find_removed_views current_schema target_schema))
    h3.1 (fun y hy => le_trans (by norm_num) (h3.2 y hy))
  have h1 := sorted_append_of_const_le 1 _ _
    (mem_map_phase_const DiffOp.dropTable 1 (fun _ => rfl)
      (find_removed_tables current_schema target_schema))
    h2.1 (fun y hy => le_trans (by norm_num) (h2.2 y hy))
  have h0 := sorted_append_of_const_le 0 _ _
    (mem_map_phase_const DiffOp.dropFunction 0 (fun _ => rfl)
      (find_removed_functions current_schema target_schema))
    h1.1 (fun y hy => Nat.zero_le y)
  rw [diff_schema_emitted]
  simpa [List.map_append, List.append_assoc] using h0.1

theorem emission_phase_ne_two_of_mem_append (A B : List DiffOp)
    (hA : ∀ op ∈ A, emission_phase op ≠ 2)
    (hB : ∀ op ∈ B, emission_phase op ≠ 2) :
    ∀ op ∈ A ++ B, emission_phase op ≠ 2 := by
  intro op hop
  rcases List.mem_append.mp hop with h | h
  · exact hA op h
  · exact hB op h

theorem emission_phase_ne_two_of_map {α : Type} (ctor : α → DiffOp) (c : Nat)
    (hc : ∀ a, emission_phase (ctor a) = c) (hne : c ≠ 2) (l : List α) :
    ∀ op ∈ l.map ctor, emission_phase op ≠ 2 := by
  intro op hop
  obtain ⟨a, _, rfl⟩ := List.mem_map.mp hop
  rw [hc a]
  exact hne

theorem emission_phase_ne_two_alter (current_schema target_schema : PgSchemaD) :
    ∀ op ∈ ((find_modified_tables current_schema target_schema).map
      (fun steps => steps.map DiffOp.alterTable)).flatten,
      emission_phase op ≠ 2 := by
  intro op hop
  obtain ⟨block, hblock, hopin⟩ := List.mem_flatten.mp hop
  obtain ⟨steps, _, rfl⟩ := List.mem_map.mp hblock
  obtain ⟨st, _, rfl⟩ := List.mem_map.mp hopin
  simp [emission_phase]

theorem diff_schema_emitted_phase_ne_two
    (current_schema target_schema : PgSchemaD)
    (hv : find_removed_views current_schema target_schema = []) :
    ∀ op ∈ diff_schema_emitted current_schema target_schema,
      emission_phase op ≠ 2 := by
  rw [diff_schema_emitted]
  exact emission_phase_ne_two_of_mem_append _ _
    (emission_phase_ne_two_of_mem_append _ _
      (emission_phase_ne_two_of_mem_append _ _
        (emission_phase_ne_two_of_mem_append _ _
          (emission_phase_ne_two_of_mem_append _ _
            (emission_phase_ne_two_of_mem_append _ _
              (emission_phase_ne_two_of_mem_append _ _
                (emission_phase_ne_two_of_mem_append _ _
                  (emission_phase_ne_two_of_mem_append _ _
                    (emission_phase_ne_two_of_map DiffOp.dropFunction 0
                      (fun _ => rfl) (by decide) _)
                    (emission_phase_ne_two_of_map DiffOp.dropTable 1
                      (fun _ => rfl) (by decide) _))
                  (by intro op hop; rw [hv] at hop; simp at hop))
                (emission_phase_ne_two_of_map DiffOp.dropCompositeType 3
                  (fun _ => rfl) (by decide) _))
              (emission_phase_ne_two_of_map DiffOp.createTable 4
                (fun _ => rfl) (by decide) _))
            (emission_phase_ne_two_of_map DiffOp.createView 5
              (fun _ => rfl) (by decide) _))
          (emission_phase_ne_two_alter current_schema target_schema))
        (emission_phase_ne_two_of_map DiffOp.createCompositeType 7
          (fun _ => rfl) (by decide) _))
      (emission_phase_ne_two_of_map DiffOp.createFunction 8
        (fun _ => rfl) (by decide) _))
    (emission_phase_ne_two_of_map DiffOp.replaceFunction 9
      (fun _ => rfl) (by decide) _)

/-- The current schema of the C6 counterexample: it owns one view and nothing
else. -/
def example_view_cur : PgSchemaD := ⟨"shop", [], [⟨"order_summary"⟩], [], []⟩

/-- The target schema of the C6 counterexample: the view is removed and one
table is added. -/
def example_view_tgt : PgSchemaD := ⟨"shop", [⟨"order", [⟨"id"⟩]⟩], [], [], []⟩

/-- C6 counterexample: the claim asserts that for every pair of schemas the
differ emits dropped views and then the creation phases; at this concrete pair
(one removed view, one new table) the shipped code instead raises `NameError`
at diff.py line 101 — `render_drop_view_sql` is never imported — so emission
aborts after the dropped-functions and dropped-tables phases and neither the
drop-view operation nor the create-table operation for the new table is ever
emitted. -/
theorem diff_schema_emission_counterexample :
    diff_schema example_view_cur example_view_tgt =
      ([], some (PyNameError.nameError "render_drop_view_sql")) ∧
    DiffOp.createTable ⟨"order", [⟨"id"⟩]⟩ ∉
      (diff_schema example_view_cur example_view_tgt).1 ∧
    DiffOp.dropView ⟨"order_summary"⟩ ∉
      (diff_schema example_view_cur example_view_tgt).1 := by
  refine ⟨by decide, by decide, by decide⟩

/-- C6 (amended): the operations `diff_schema` actually emits are in
non-decreasing phase — dropped functions, dropped tables, then, only when no
view is removed, dropped types, new tables, new views, modified-table column
steps, new types, new functions and replaced functions; it completes without
error exactly when no view is removed (otherwise the first removed view raises
`NameError` because diff.py calls `render_drop_view_sql` without importing it,
aborting after the first two phases); consequently no drop-view operation is
ever emitted, and every emitted drop (phase at most 3) precedes every emitted
creation (phase at least 4). -/
theorem diff_schema_emission_order (current_schema target_schema : PgSchemaD) :
    (((diff_schema current_schema target_schema).1.map
      emission_phase).Sorted (· ≤ ·)) ∧
    ((diff_schema current_schema target_schema).2 = none ↔
      find_removed_views current_schema target_schema = []) ∧
    (∀ op ∈ (diff_schema current_schema target_schema).1,
      emission_phase op ≠ 2) ∧
    (∀ i j : Fin (diff_schema current_schema target_schema).1.length,
      emission_phase ((diff_schema current_schema target_schema).1.get i) ≤ 3 →
      4 ≤ emission_phase ((diff_schema current_schema target_schema).1.get j) →
      (i : Nat) < (j : Nat)) := by
  have hmain : (((diff_schema current_schema target_schema).1.map
      emission_phase).Sorted (· ≤ ·)) ∧
      ((diff_schema current_schema target_schema).2 = none ↔
        find_removed_views current_schema target_schema = []) ∧
      (∀ op ∈ (diff_schema current_schema target_schema).1,
        emission_phase op ≠ 2) := by
    cases hv : find_removed_views current_schema target_schema with
    | nil =>
      have hdef : diff_schema current_schema target_schema =
          (diff_schema_emitted current_schema target_schema, none) := by
        simp only [diff_schema, hv]
      rw [hdef]
      exact ⟨diff_schema_emitted_sorted current_schema target_schema,
        by simp [hv],
        diff_schema_emitted_phase_ne_two current_schema target_schema hv⟩
    | cons v vs =>
      have hdef : diff_schema current_schema target_schema =
          ((find_removed_functions current_schema target_schema).map
              DiffOp.dropFunction ++
           (find_removed_tables current_schema target_schema).map
              DiffOp.dropTable,
           some (PyNameError.nameError "render_drop_view_sql")) := by
        simp only [diff_schema, hv]
      rw [hdef]
      refine ⟨?_, by simp [hv], ?_⟩
      · have h1 := sorted_append_of_const_le 1 _ []
          (mem_map_phase_const DiffOp.dropTable 1 (fun _ => rfl)
            (find_removed_tables current_schema target_schema))
          List.sorted_nil (by intro y hy; cases hy)
        rw [List.append_nil] at h1
        have h0 := sorted_append_of_const_le 0 _ _
          (mem_map_phase_const DiffOp.dropFunction 0 (fun _ => rfl)
            (find_removed_functions current_schema target_schema))
          h1.1 (fun y hy => Nat.zero_le y)
        simpa [List.map_append] using h0.1
      · exact emission_phase_ne_two_of_mem_append _ _
          (emission_phase_ne_two_of_map DiffOp.dropFunction 0 (fun _ => rfl)
            (by decide) _)
          (emission_phase_ne_two_of_map DiffOp.dropTable 1 (fun _ => rfl)
            (by decide) _)
  refine ⟨hmain.1, hmain.2.1, hmain.2.2, ?_⟩
  set L := (diff_schema current_schema target_schema).1 with hL
  have hsorted : (L.map emission_phase).Sorted (· ≤ ·) := hmain.1
  intro i j hdrop hcreate
  by_contra hnot
  push_neg at hnot
  rcases Nat.lt_or_ge (j : Nat) (i : Nat) with hlt | hge
  · have hpair : emission_phase (L.get j) ≤ emission_phase (L.get i) := by
      have := List.pairwise_iff_get.mp hsorted
        ⟨j, by simp [j.isLt]⟩ ⟨i, by simp [i.isLt]⟩ (by simpa using hlt)
      simpa [List.getElem_map] using this
    have : (4 : Nat) ≤ 3 := le_trans hcreate (le_trans hpair hdrop)
    norm_num at this
  · have hij : (i : Nat) = (j : Nat) := le_antisymm hge hnot
    have : L.get i = L.get j := by
      congr 1
      exact Fin.ext hij
    rw [this] at hdrop
    have : (4 : Nat) ≤ 3 := le_trans hcreate hdrop
    norm_num at this

/-- Decidable equality of `Except` results, for evaluating the embedded
functions on concrete inputs. -/
instance {e a : Type} [DecidableEq e] [DecidableEq a] :
    DecidableEq (Except e a) := fun x y =>
  match x, y with
  | .ok u, .ok v =>
    if h : u = v then isTrue (by rw [h])
    else isFalse (by intro hc; cases hc; exact h rfl)
  | .error u, .error v =>
    if h : u = v then isTrue (by rw [h])
    else isFalse (by intro hc; cases hc; exact h rfl)
  | .ok _, .error _ => isFalse (by intro hc; cases hc)
  | .error _, .ok _ => isFalse (by intro hc; cases hc)

/-- One loader value of the `object_loaders` dict (the bound `load`
staticmethods). -/
inductive LoaderTag
  | schemaLoader
  | tableLoader
  | functionLoader
  | viewLoader
  | compositeTypeLoader
  | enumTypeLoader
  | aggregateLoader
  | sequenceLoader
  | roleLoader
  | triggerLoader
  | castLoader
  | settingLoader
  | rowLoader
deriving DecidableEq

/-- `object_loaders` (pg_types.py lines 1870-1884): the kind-string to loader
dispatch dict, in source order. -/
def object_loaders : List (String × LoaderTag) :=
  [("schema", .schemaLoader), ("table", .tableLoader),
   ("function", .functionLoader), ("view", .viewLoader),
   ("composite_type", .compositeTypeLoader), ("enum_type", .enumTypeLoader),
   ("aggregate", .aggregateLoader), ("sequence", .sequenceLoader),
   ("role", .roleLoader), ("trigger", .triggerLoader), ("cast", .castLoader),
   ("setting", .settingLoader), ("row", .rowLoader)]

/-- The exceptions that can flow out of `load_object`: the `KeyError` a Python
dict lookup raises for a missing key (its message is the key), an `IndexError`,
and the `Exception` constructed by the handler in `load_object`. -/
inductive LoadObjectError
  | keyError (kind : String)
  | indexError
  | unsupportedObjectType (kind : String)
deriving DecidableEq

/-- Python `object_loaders[object_type]`: a dict lookup that raises `KeyError`
naming the key when it is absent. -/
def dict_getitem (m : List (String × LoaderTag)) (k : String) :
    Except LoadObjectError LoaderTag :=
  match m.find? (fun p => p.1 == k) with
  | some p => .ok p.2
  | none => .error (.keyError k)

/-- `load_object` (pg_types.py lines 1887-1893): the `try` block looks the kind
up in `object_loaders`; the `except IndexError` handler converts only an
`IndexError` into the unsupported-object-type exception, so the `KeyError` a
missing kind actually raises propagates unchanged. -/
def load_object (object_type : String) : Except LoadObjectError LoaderTag :=
  match dict_getitem object_loaders object_type with
  | .error .indexError => .error (.unsupportedObjectType object_type)
  | r => r

/-- C8 counterexample: the kinds `procedure` and `operator` are not in the
dispatch dict, and an unrecognized kind fails with a bare `KeyError` naming the
kind — never with the unsupported-object-kind error, whose handler catches
`IndexError` while the dict lookup raises `KeyError`. -/
theorem load_object_unknown_kind_counterexample :
    load_object "procedure" = .error (.keyError "procedure") ∧
    load_object "operator" = .error (.keyError "operator") ∧
    load_object "procedure" ≠ .error (.unsupportedObjectType "procedure") ∧
    ("procedure" ∉ object_loaders.map Prod.fst ∧
     "operator" ∉ object_loaders.map Prod.fst) := by
  refine ⟨by decide, by decide, by decide, by decide, by decide⟩

/-- C8 amended: `load` dispatches on the entry's single kind key; exactly the
kinds `schema`, `table`, `function`, `view`, `composite_type`, `enum_type`,
`aggregate`, `sequence`, `role`, `trigger`, `cast`, `setting` and `row` reach
their loaders, and any other kind tag (including `procedure` and `operator`)
makes the load fail with a `KeyError` naming the kind — the intended
unsupported-object-kind message is unreachable because its handler catches
`IndexError` instead. -/
theorem load_object_dispatch (object_type : String)
    (h : object_type ∉ object_loaders.map Prod.fst) :
    (∀ kind tag, (kind, tag) ∈ object_loaders → load_object kind = .ok tag) ∧
    load_object object_type = .error (.keyError object_type) := by
  constructor
  · intro kind tag hmem
    fin_cases hmem <;> rfl
  · have hnone : object_loaders.find? (fun p => p.1 == object_type) = none := by
      rw [List.find?_eq_none]
      intro p hp
      simp only [beq_iff_eq]
      intro heq
      exact h (heq ▸ List.mem_map_of_mem Prod.fst hp)
    rw [load_object, dict_getitem, hnone]

/-- Witness for the amended C8 at the concrete kind `procedure`. -/
theorem load_object_dispatch_witness :
    (∀ kind tag, (kind, tag) ∈ object_loaders → load_object kind = .ok tag) ∧
    load_object "procedure" = .error (.keyError "procedure") :=
  load_object_dispatch "procedure" (by decide)

/-- A scalar as the YAML loader delivers it to `load`: the relevant distinction
is between the string `'1'` and the integer `1`. -/
inductive YamlValue
  | str (s : String)
  | int (n : Int)
deriving DecidableEq

/-- The `Exception('Unsupported format version: ...')` of `load`
(pg_types.py line 253). -/
inductive VersionError
  | unsupportedFormatVersion (v : YamlValue)
deriving DecidableEq

/-- The version gate of `load` (pg_types.py lines 250-253):
`version = data.get('version', '1')`, failing unless it equals the string
`'1'`. -/
def check_version (data_version : Option YamlValue) : Except VersionError Unit :=
  let version := data_version.getD (.str "1")
  if version ≠ .str "1" then .error (.unsupportedFormatVersion version)
  else .ok ()

/-- C10: a document with no `version` key is accepted and treated as version
`'1'`; the unsupported-version failure occurs exactly when a `version` key is
present with a value other than the string `'1'` — in particular the integer
`1` is rejected. -/
theorem check_version_characterization :
    check_version none = .ok () ∧
    check_version (some (.int 1)) =
      .error (.unsupportedFormatVersion (.int 1)) ∧
    ∀ v, check_version (some v) =
      if v = .str "1" then .ok ()
      else .error (.unsupportedFormatVersion v) := by
  refine ⟨by decide, by decide, ?_⟩
  intro v
  by_cases h : v = YamlValue.str "1" <;> simp [check_version, h]

/-- The whitespace set of Python's default `str.strip()` — every character for
which `str.isspace()` holds: U+0009 to U+000D, U+001C to U+001F, U+0020,
U+0085, U+00A0, U+1680, U+2000 to U+200A, U+2028, U+2029, U+202F, U+205F and
U+3000. The derived argument count is zero exactly when the parenthesized text
consists only of these characters. -/
def isSpaceChar (c : Char) : Bool :=
  (decide (9 ≤ c.toNat) && decide (c.toNat ≤ 13)) ||
  (decide (28 ≤ c.toNat) && decide (c.toNat ≤ 31)) ||
  c.toNat == 32 || c.toNat == 133 || c.toNat == 160 || c.toNat == 5760 ||
  (decide (8192 ≤ c.toNat) && decide (c.toNat ≤ 8202)) ||
  c.toNat == 8232 || c.toNat == 8233 || c.toNat == 8239 || c.toNat == 8287 ||
  c.toNat == 12288

/-- The parenthesis-balancing loop of `PgDatabase.find_dependencies`
(pg_types.py lines 205-216), applied to the text after the call's opening
parenthesis with `depth = 1` and `commas = 0`: each character adjusts the
depth, a comma at depth 1 is counted, the scan stops at the closing parenthesis
that returns the depth to 0, and the characters before it form the argument
text. Running out of text with the parentheses still open is Python's
out-of-range indexing (`none`). -/
def scan_arguments : List Char → Nat → Nat → Option (Nat × List Char)
  | [], _, _ => none
  | c :: rest, depth, commas =>
    let depth2 := if c = '(' then depth + 1
      else if c = ')' then depth - 1 else depth
    let commas2 := if c = ',' ∧ depth = 1 then commas + 1 else commas
    if depth2 = 0 then some (commas2, [])
    else (scan_arguments rest depth2 commas2).map (fun p => (p.1, c :: p.2))

/-- An object of a schema as `find_dependencies` consults it: its identity, its
`name` and its `argument_number` property (pg_types.py lines 287-292, the
number of `arguments`, or 0 for objects without them). -/
structure SchemaObj where
  oid : Nat
  name : String
  argument_number : Nat
deriving DecidableEq

/-- The per-call-site body of `PgDatabase.find_dependencies` (pg_types.py lines
202-226) once a qualified call `schema.name(` has been located and its schema
resolved: balance parentheses counting top-level commas, derive the argument
count (`commas + 1`, or 0 when the argument text is whitespace-only), and
collect every object of the schema with that bare name whose
`argument_number` equals the count (`schema.getall(name)` filtered by arity). -/
def find_dependencies_call (schema_objects : List SchemaObj) (name : String)
    (after_paren : List Char) : Option (List SchemaObj) :=
  match scan_arguments after_paren 1 0 with
  | none => none
  | some (commas, arguments) =>
    let argument_number :=
      if arguments.any (fun c => !(isSpaceChar c)) then commas + 1 else 0
    some ((schema_objects.filter (fun o => o.name == name)).filter
      (fun o => o.argument_number == argument_number))

/-- A well-formed argument text: parentheses balance back to relative depth 0,
never dipping below it, and no comma occurs at relative depth 0. -/
def balanced_segment : List Char → Nat → Bool
  | [], d => d == 0
  | c :: rest, d =>
    if c = '(' then balanced_segment rest (d + 1)
    else if c = ')' then decide (0 < d) && balanced_segment rest (d - 1)
    else if c = ',' then decide (0 < d) && balanced_segment rest d
    else balanced_segment rest d

/-- The textual form of an argument list: the arguments joined by commas. -/
def render_arguments : List (List Char) → List Char
  | [] => []
  | [a] => a
  | a :: b :: rest => a ++ ',' :: render_arguments (b :: rest)

theorem scan_arguments_cons_other (c : Char) (l : List Char)
    (depth commas : Nat) (hc1 : c ≠ '(') (hc2 : c ≠ ')') (hc3 : c ≠ ',')
    (hd : depth ≠ 0) :
    scan_arguments (c :: l) depth commas =
      (scan_arguments l depth commas).map (fun p => (p.1, c :: p.2)) := by
  simp [scan_arguments, hc1, hc2, hc3, hd]

theorem scan_skip_segment (s : List Char) : ∀ (d commas : Nat) (t : List Char),
    balanced_segment s d = true →
    scan_arguments (s ++ t) (d + 1) commas =
      (scan_arguments t 1 commas).map (fun p => (p.1, s ++ p.2)) := by
  induction s with
  | nil =>
    intro d commas t hbal
    have hd : d = 0 := by simpa [balanced_segment] using hbal
    subst hd
    simp only [List.nil_append, Nat.zero_add]
    cases scan_arguments t 1 commas with
    | none => rfl
    | some p => rfl
  | cons c s ih =>
    intro d commas t hbal
    by_cases hc1 : c = '('
    · subst hc1
      have hrest : balanced_segment s (d + 1) = true := by
        simpa [balanced_segment] using hbal
      have hih := ih (d + 1) commas t hrest
      have hstep : scan_arguments ('(' :: (s ++ t)) (d + 1) commas =
          (scan_arguments (s ++ t) (d + 1 + 1) commas).map
            (fun p => (p.1, '(' :: p.2)) := rfl
      rw [List.cons_append, hstep, hih]
      cases scan_arguments t 1 commas with
      | none => rfl
      | some p => rfl
    · by_cases hc2 : c = ')'
      · subst hc2
        have hb : (decide (0 < d) && balanced_segment s (d - 1)) = true := by
          simpa [balanced_segment, hc1] using hbal
        have hd : 0 < d := by
          have := (Bool.and_eq_true _ _).mp hb
          simpa using this.1
        obtain ⟨e, rfl⟩ : ∃ e, d = e + 1 := ⟨d - 1, by omega⟩
        have hrest : balanced_segment s e = true := by
          simpa using ((Bool.and_eq_true _ _).mp hb).2
        have hih := ih e commas t hrest
        have hstep : scan_arguments (')' :: (s ++ t)) (e + 1 + 1) commas =
            (scan_arguments (s ++ t) (e + 1) commas).map
              (fun p => (p.1, ')' :: p.2)) := rfl
        rw [List.cons_append, hstep, hih]
        cases scan_arguments t 1 commas with
        | none => rfl
        | some p => rfl
      · by_cases hc3 : c = ','
        · subst hc3
          have hb : (decide (0 < d) && balanced_segment s d) = true := by
            simpa [balanced_segment, hc1, hc2] using hbal
          have hd : 0 < d := by
            have := (Bool.and_eq_true _ _).mp hb
            simpa using this.1
          obtain ⟨e, rfl⟩ : ∃ e, d = e + 1 := ⟨d - 1, by omega⟩
          have hrest : balanced_segment s (e + 1) = true :=
            ((Bool.and_eq_true _ _).mp hb).2
          have hih := ih (e + 1) commas t hrest
          have hstep : scan_arguments (',' :: (s ++ t)) (e + 1 + 1) commas =
              (scan_arguments (s ++ t) (e + 1 + 1) commas).map
                (fun p => (p.1, ',' :: p.2)) := rfl
          rw [List.cons_append, hstep, hih]
          cases scan_arguments t 1 commas with
          | none => rfl
          | some p => rfl
        · have hrest : balanced_segment s d = true := by
            simpa [balanced_segment, hc1, hc2, hc3] using hbal
          have hih := ih d commas t hrest
          rw [List.cons_append,
            scan_arguments_cons_other c (s ++ t) (d + 1) commas hc1 hc2 hc3
              (by omega), hih]
          cases scan_arguments t 1 commas with
          | none => rfl
          | some p => rfl

theorem scan_render (args : List (List Char))
    (hbal : ∀ a ∈ args, balanced_segment a 0 = true) :
    ∀ (rest : List Char) (commas : Nat),
    scan_arguments (render_arguments args ++ ')' :: rest) 1 commas =
      some (commas + (args.length - 1), render_arguments args) := by
  induction args with
  | nil =>
    intro rest commas
    have hstep : scan_arguments (')' :: rest) 1 commas =
        some (commas, []) := rfl
    simp [render_arguments, hstep]
  | cons a args ih =>
    intro rest commas
    match args with
    | [] =>
      have h1 := scan_skip_segment a 0 commas (')' :: rest)
        (hbal a (List.mem_cons_self a []))
      have hstep : scan_arguments (')' :: rest) (0 + 1) commas =
          some (commas, []) := rfl
      rw [show render_arguments [a] = a from rfl]
      rw [show (0 : Nat) + 1 = 1 from rfl] at h1
      rw [h1, hstep]
      simp
    | b :: args2 =>
      have hrender : render_arguments (a :: b :: args2) =
          a ++ ',' :: render_arguments (b :: args2) := rfl
      have h1 := scan_skip_segment a 0 commas
        (',' :: (render_arguments (b :: args2) ++ ')' :: rest))
        (hbal a (List.mem_cons_self a (b :: args2)))
      rw [show (0 : Nat) + 1 = 1 from rfl] at h1
      have hcommastep : scan_arguments
          (',' :: (render_arguments (b :: args2) ++ ')' :: rest)) 1 commas =
          (scan_arguments (render_arguments (b :: args2) ++ ')' :: rest) 1
            (commas + 1)).map (fun p => (p.1, ',' :: p.2)) := rfl
      have hih := ih (fun x hx => hbal x (List.mem_cons_of_mem a hx)) rest
        (commas + 1)
      rw [hrender, List.append_assoc, List.cons_append]
      rw [h1, hcommastep, hih]
      simp only [Option.map_some', List.length_cons, Option.some.injEq,
        Prod.mk.injEq]
      exact ⟨by omega, trivial⟩

theorem mem_render_arguments (args : List (List Char)) (a : List Char)
    (ha : a ∈ args) (c : Char) (hc : c ∈ a) : c ∈ render_arguments args := by
  induction args with
  | nil => cases ha
  | cons x args ih =>
    match args with
    | [] =>
      have : a = x := by simpa using ha
      subst this
      simpa [render_arguments] using hc
    | y :: args2 =>
      rw [show render_arguments (x :: y :: args2) =
        x ++ ',' :: render_arguments (y :: args2) from rfl]
      rcases List.mem_cons.mp ha with rfl | ha2
      · exact List.mem_append_left _ hc
      · exact List.mem_append_right _
          (List.mem_cons_of_mem _ (ih ha2))

/-- C9: for a call site whose parenthesized text is a comma-joined list of
well-formed, non-blank arguments (each balanced, without top-level commas,
containing a non-whitespace character), `find_dependencies` derives the
argument count by balancing parentheses and counting top-level commas — an
empty argument list giving zero — and records a dependency on exactly the
objects of the schema sharing the bare name whose arity equals that count; in
particular, when no candidate's arity matches, the recorded list is empty. -/
theorem find_dependencies_arity (schema_objects : List SchemaObj) (name : String)
    (args : List (List Char)) (rest : List Char)
    (hbal : ∀ a ∈ args, balanced_segment a 0 = true)
    (hns : ∀ a ∈ args, a.any (fun c => !(isSpaceChar c)) = true) :
    find_dependencies_call schema_objects name
        (render_arguments args ++ ')' :: rest) =
      some ((schema_objects.filter (fun o => o.name == name)).filter
        (fun o => o.argument_number == args.length)) := by
  rw [find_dependencies_call, scan_render args hbal rest 0]
  cases args with
  | nil => simp [render_arguments]
  | cons a args2 =>
    have hex : (render_arguments (a :: args2)).any
        (fun c => !(isSpaceChar c)) = true := by
      rw [List.any_eq_true]
      obtain ⟨c, hc, hcs⟩ := List.any_eq_true.mp (hns a (by simp))
      exact ⟨c, mem_render_arguments (a :: args2) a (by simp) c hc, hcs⟩
    simp only [hex, if_true, List.length_cons]
    have harith : 0 + (args2.length + 1 - 1) + 1 = args2.length + 1 := by
      omega
    rw [harith]

/-- Concrete schema objects for the C9 witness: two overloads of `f` with
arities 2 and 1, and a `g` of arity 2. -/
def example_call_objs : List SchemaObj :=
  [⟨1, "f", 2⟩, ⟨2, "f", 1⟩, ⟨3, "g", 2⟩]

/-- Witness for C9: the call text `f(x,g(a,b))` has two top-level arguments
(the comma inside the nested call is not counted), so exactly the arity-2
overload of `f` is recorded. -/
theorem find_dependencies_arity_witness :
    find_dependencies_call example_call_objs "f"
        (render_arguments [['x'], ['g', '(', 'a', ',', 'b', ')']] ++
          ')' :: []) =
      some ((example_call_objs.filter (fun o => o.name == "f")).filter
        (fun o => o.argument_number ==
          ([['x'], ['g', '(', 'a', ',', 'b', ')']] : List (List Char)).length)) :=
  find_dependencies_arity example_call_objs "f"
    [['x'], ['g', '(', 'a', ',', 'b', ')']] [] (by decide) (by decide)
